import Mathlib

/-!
A shallow embedding of `src/pay_loader.py`, a single-file payer-claims pipeline:
input resolution (`prepare_dataframe`), transformation (`transform_data`),
destination selection and loading (`PayerLoader`), and the CLI driver (`main`).

Modelling conventions:
* A pandas `DataFrame` is a rectangular table: a list of column names and a
  list of rows, each row a list of cells aligned with the column list.
* Numeric cells are exact rationals (the Python floats 1.10 and 0.95 are the
  rationals 11/10 and 19/20); `Value.null` models pandas NaN.
* `datetime.now()` is a parameter `now` threaded into `transform_data` and
  `main`, read once per call exactly as the source calls it once.
* Raising an exception is returning `Except.error`; printed lines and file
  reads are collected in an event trace.
* The file system is a function from paths to optionally a parsed CSV frame;
  `none` models a missing or unparseable file (`pd.read_csv` raising).
-/

/-- Lowercasing character by character; models Python `str.lower()` on the
ASCII payer names the program compares. -/
def lowerStr (s : String) : String := ⟨s.data.map Char.toLower⟩

/-- One cell of a DataFrame: a number, a string, a timestamp, or NaN. -/
inductive Value
  | num (q : ℚ)
  | str (s : String)
  | timestamp (t : ℚ)
  | null
deriving DecidableEq

/-- A pandas DataFrame: named columns, and one list of cells per row. -/
structure DataFrame where
  cols : List String
  rows : List (List Value)
deriving DecidableEq

/-- Rectangularity: every row has exactly one cell per column.  Pandas frames
are rectangular by construction; positional access below relies on it. -/
def DataFrame.WF (df : DataFrame) : Prop :=
  ∀ r ∈ df.rows, r.length = df.cols.length

instance (df : DataFrame) : Decidable df.WF :=
  show Decidable (∀ r ∈ df.rows, r.length = df.cols.length) from inferInstance

/-- Cell access by position; out of range gives `null` (never reached on
rectangular frames). -/
def vget : List Value → Nat → Value
  | [], _ => .null
  | v :: _, 0 => v
  | _ :: vs, n + 1 => vget vs n

/-- Replace the cell at a position; out of range, no change. -/
def vset : List Value → Nat → Value → List Value
  | [], _, _ => []
  | _ :: vs, 0, w => w :: vs
  | v :: vs, n + 1, w => v :: vset vs n w

/-- Index of the first column with a given name. -/
def colIdx : List String → String → Option Nat
  | [], _ => none
  | c :: cs, d => if c = d then some 0 else (colIdx cs d).map (· + 1)

/-- Combine each row with the corresponding new cell. -/
def rowsWith (f : List Value → Value → List Value) :
    List (List Value) → List Value → List (List Value)
  | [], _ => []
  | _ :: _, [] => []
  | r :: rs, v :: vs => f r v :: rowsWith f rs vs

/-- `df[c]`: the column named `c`, one value per row; `none` models the pandas
`KeyError` on a missing column. -/
def DataFrame.getCol (df : DataFrame) (c : String) : Option (List Value) :=
  (colIdx df.cols c).map (fun i => df.rows.map (fun r => vget r i))

/-- `df[c] = vs` with one value per row: pandas replaces the column in place
if it exists, else appends it on the right. -/
def DataFrame.setCol (df : DataFrame) (c : String) (vs : List Value) : DataFrame :=
  match colIdx df.cols c with
  | some i => ⟨df.cols, rowsWith (fun r v => vset r i v) df.rows vs⟩
  | none => ⟨df.cols ++ [c], rowsWith (fun r v => r ++ [v]) df.rows vs⟩

/-- `df[c] = v`: scalar assignment broadcasts one value to every row. -/
def DataFrame.setColScalar (df : DataFrame) (c : String) (v : Value) : DataFrame :=
  df.setCol c (df.rows.map (fun _ => v))

/-- Transform-time failures. `missingColumn` is the pandas `KeyError` the spec
names `MissingColumnError`; `typeMismatch` is the `TypeError` the spec names
`TypeMismatchError`. -/
inductive TransformError
  | missingColumn (c : String)
  | typeMismatch
deriving DecidableEq

/-- A cell that a numeric scalar multiplication rejects (pandas `TypeError`):
strings and timestamps.  Numbers multiply and NaN stays NaN. -/
def Value.nonNumeric : Value → Bool
  | .num _ => false
  | .null => false
  | _ => true

/-- One cell of `df[c] * m`: numbers multiply, NaN propagates, anything else
raises `TypeError` (`none`). -/
def mulValue (m : ℚ) : Value → Option Value
  | .num q => some (.num (q * m))
  | .null => some .null
  | _ => none

/-- A whole column of `df[c] * m`; fails on the first non-numeric cell. -/
def mulColumn (m : ℚ) : List Value → Option (List Value)
  | [] => some []
  | v :: vs =>
    match mulValue m v, mulColumn m vs with
    | some w, some ws => some (w :: ws)
    | _, _ => none

/-- `transform_data` of `src/pay_loader.py`: copy the frame, stamp an
`ingestion_timestamp` column with the wall clock read once per call, then
multiply `claim_amount` by 11/10 when the lowercased payer is "anthem", by
19/20 when it is "cigna", and otherwise leave the frame as stamped. -/
def transform_data (df : DataFrame) (payer : String) (now : ℚ) :
    Except TransformError DataFrame :=
  let df1 := df.setColScalar "ingestion_timestamp" (.timestamp now)
  if lowerStr payer = "anthem" then
    match df1.getCol "claim_amount" with
    | none => .error (.missingColumn "claim_amount")
    | some vs =>
      match mulColumn (11 / 10) vs with
      | none => .error .typeMismatch
      | some ws => .ok (df1.setCol "claim_amount" ws)
  else if lowerStr payer = "cigna" then
    match df1.getCol "claim_amount" with
    | none => .error (.missingColumn "claim_amount")
    | some vs =>
      match mulColumn (19 / 20) vs with
      | none => .error .typeMismatch
      | some ws => .ok (df1.setCol "claim_amount" ws)
  else .ok df1

/-- First value under a key in a manually supplied row (a Python dict, in
insertion order). -/
def lookupKey : List (String × Value) → String → Option Value
  | [], _ => none
  | kv :: r, c => if kv.1 = c then some kv.2 else lookupKey r c

/-- Fold one row's keys into the running column list, first-seen order. -/
def addKeys (acc : List String) (r : List (String × Value)) : List String :=
  r.foldl (fun a kv => if kv.1 ∈ a then a else a ++ [kv.1]) acc

/-- Column names `pd.DataFrame` infers from a list of dict rows. -/
def unionKeys (input : List (List (String × Value))) : List String :=
  input.foldl addKeys []

/-- The `list` overload of `prepare_dataframe`: `pd.DataFrame(input_data)` on
a list of dict rows.  Columns are the union of the rows' keys in first-seen
order; a cell absent from a row is NaN.  The empty list gives the empty frame;
no input raises. -/
def prepare_dataframe_list (input : List (List (String × Value))) : DataFrame :=
  let cols := unionKeys input
  ⟨cols, input.map (fun r => cols.map (fun c => (lookupKey r c).getD Value.null))⟩

/-- An observable step of a run: a printed line, a CSV read, or entry into the
transform or load stage (the last two are instrumentation markers). -/
inductive Event
  | printLine (s : String)
  | readCsv (path : String)
  | transformCall
  | loadCall
deriving DecidableEq

/-- Whether an event touches the file system. -/
def Event.isRead : Event → Bool
  | .readCsv _ => true
  | _ => false

/-- `PayerLoader`: its `__init__` lowercases the payer name and stores it. -/
structure PayerLoader where
  payer : String
deriving DecidableEq

/-- `PayerLoader.__init__`. -/
def PayerLoader.init (payer : String) : PayerLoader := ⟨lowerStr payer⟩

/-- The table name `PayerLoader.load` chooses from the stored payer. -/
def PayerLoader.table (l : PayerLoader) : String :=
  if l.payer = "anthem" then "SNOWFLAKE.RAW.ANTHEM_TABLE"
  else if l.payer = "cigna" then "SNOWFLAKE.RAW.CIGNA_TABLE"
  else "SNOWFLAKE.RAW.GENERIC_CLAIMS"

/-- `PayerLoader.load`: prints the destination table and the row count. -/
def PayerLoader.load (l : PayerLoader) (df : DataFrame) : List Event :=
  [ .printLine ("Loading data into " ++ l.table),
    .printLine ("Total rows: " ++ toString df.rows.length) ]

/-- Destination selection as a function of the raw payer name: construct a
`PayerLoader` and read off its table (the spec's `select_destination`). -/
def select_destination (payer : String) : String :=
  (PayerLoader.init payer).table

/-- Run-level failures. `missingArgument` is the `ValueError` the spec names
`MissingArgumentError`; `dataSource` is a `pd.read_csv` failure the spec names
`DataSourceError`. -/
inductive MainError
  | missingArgument
  | dataSource (path : String)
  | transformFailed (e : TransformError)
deriving DecidableEq

/-- The two-row built-in sample `main` uses for payer "manual". -/
def manual_data : List (List (String × Value)) :=
  [ [ ("member_id", .num 1), ("claim_id", .num 1001), ("claim_amount", .num 500),
      ("service_date", .str "2024-01-10"), ("payer_name", .str "manual") ],
    [ ("member_id", .num 2), ("claim_id", .num 1002), ("claim_amount", .num 800),
      ("service_date", .str "2024-02-15"), ("payer_name", .str "manual") ] ]

/-- The tail of `main` after input resolution: transform the frame, then load
it with a fresh `PayerLoader`; a transform failure aborts before loading. -/
def runPipeline (pre : List Event) (df : DataFrame) (payer : String) (now : ℚ) :
    List Event × Except MainError Unit :=
  match transform_data df payer now with
  | .error e => (pre ++ [Event.transformCall], .error (.transformFailed e))
  | .ok df2 =>
    (pre ++ [Event.transformCall, Event.loadCall] ++ (PayerLoader.init payer).load df2,
     .ok ())

/-- `main` of `src/pay_loader.py` after argument parsing: `payer` is the
`--payer` flag (argparse restricts it to anthem, cigna or manual), `source`
the optional `--source` flag, `fs` the file system, `now` the wall clock.
Python's `not args.source` is true both for an absent flag and for an empty
string, and is checked before any file access. -/
def PayLoader.main (payer : String) (source : Option String)
    (fs : String → Option DataFrame) (now : ℚ) :
    List Event × Except MainError Unit :=
  if payer = "manual" then
    runPipeline [Event.printLine "Reading data from manual input list"]
      (prepare_dataframe_list manual_data) payer now
  else
    match source with
    | none => ([], .error .missingArgument)
    | some s =>
      if s = "" then ([], .error .missingArgument)
      else
        match fs s with
        | none =>
          ([Event.printLine ("Reading data from file: " ++ s), Event.readCsv s],
           .error (.dataSource s))
        | some df =>
          runPipeline
            [Event.printLine ("Reading data from file: " ++ s), Event.readCsv s]
            df payer now

/-! ### Cell- and index-level lemmas -/

theorem vget_vset_self (r : List Value) (i : Nat) (v : Value) (h : i < r.length) :
    vget (vset r i v) i = v := by
  induction r generalizing i with
  | nil => simp at h
  | cons a as ih =>
    cases i with
    | zero => rfl
    | succ n => exact ih n (Nat.lt_of_succ_lt_succ h)

theorem vget_vset_ne (r : List Value) (i j : Nat) (v : Value) (hij : i ≠ j) :
    vget (vset r j v) i = vget r i := by
  induction r generalizing i j with
  | nil => rfl
  | cons a as ih =>
    cases j with
    | zero =>
      cases i with
      | zero => exact absurd rfl hij
      | succ n => rfl
    | succ m =>
      cases i with
      | zero => rfl
      | succ n => exact ih n m (fun hnm => hij (by rw [hnm]))

theorem vset_length (r : List Value) (i : Nat) (v : Value) :
    (vset r i v).length = r.length := by
  induction r generalizing i with
  | nil => rfl
  | cons a as ih =>
    cases i with
    | zero => rfl
    | succ n => simp [vset, ih]

theorem vget_append_lt (r : List Value) (v : Value) (i : Nat) (h : i < r.length) :
    vget (r ++ [v]) i = vget r i := by
  induction r generalizing i with
  | nil => simp at h
  | cons a as ih =>
    cases i with
    | zero => rfl
    | succ n => exact ih n (Nat.lt_of_succ_lt_succ h)

theorem vget_append_self (r : List Value) (v : Value) :
    vget (r ++ [v]) r.length = v := by
  induction r with
  | nil => rfl
  | cons a as ih => simpa using ih

theorem colIdx_lt_length (cs : List String) (c : String) (i : Nat)
    (h : colIdx cs c = some i) : i < cs.length := by
  induction cs generalizing i with
  | nil => simp [colIdx] at h
  | cons a as ih =>
    by_cases hac : a = c
    · simp [colIdx, hac] at h
      simp only [List.length_cons]
      omega
    · simp [colIdx, hac, Option.map_eq_some'] at h
      obtain ⟨k, hk, hki⟩ := h
      have := ih k hk
      simp only [List.length_cons]
      omega

theorem colIdx_mem (cs : List String) (c : String) (i : Nat)
    (h : colIdx cs c = some i) : cs.get? i = some c := by
  induction cs generalizing i with
  | nil => simp [colIdx] at h
  | cons a as ih =>
    by_cases hac : a = c
    · simp [colIdx, hac] at h
      subst h
      simpa using hac
    · simp [colIdx, hac, Option.map_eq_some'] at h
      obtain ⟨k, hk, hki⟩ := h
      subst hki
      simpa using ih k hk

theorem colIdx_ne_of_ne (cs : List String) (c d : String) (i j : Nat)
    (hcd : c ≠ d) (hc : colIdx cs c = some i) (hd : colIdx cs d = some j) : i ≠ j := by
  intro hij
  subst hij
  have h1 := colIdx_mem cs c i hc
  have h2 := colIdx_mem cs d i hd
  rw [h1] at h2
  exact hcd (Option.some.inj h2)

theorem colIdx_append_some (cs l : List String) (c : String) (i : Nat)
    (h : colIdx cs c = some i) : colIdx (cs ++ l) c = some i := by
  induction cs generalizing i with
  | nil => simp [colIdx] at h
  | cons a as ih =>
    by_cases hac : a = c
    · simp [colIdx, hac] at h ⊢
      exact h
    · simp [colIdx, hac, Option.map_eq_some'] at h ⊢
      obtain ⟨k, hk, hki⟩ := h
      exact ⟨k, ih k hk, hki⟩

theorem colIdx_append_none (cs : List String) (c d : String) (hne : c ≠ d)
    (h : colIdx cs c = none) : colIdx (cs ++ [d]) c = none := by
  induction cs with
  | nil =>
    simp [colIdx]
    exact fun hdc => hne hdc.symm
  | cons a as ih =>
    by_cases hac : a = c
    · simp [colIdx, hac] at h
    · simp [colIdx, hac, Option.map_eq_none'] at h ⊢
      exact ih h

theorem colIdx_append_new (cs : List String) (c : String)
    (h : colIdx cs c = none) : colIdx (cs ++ [c]) c = some cs.length := by
  induction cs with
  | nil => simp [colIdx]
  | cons a as ih =>
    by_cases hac : a = c
    · simp [colIdx, hac] at h
    · simp [colIdx, hac, Option.map_eq_none'] at h
      simp [colIdx, hac, ih h]

theorem colIdx_eq_none_iff (cs : List String) (c : String) :
    colIdx cs c = none ↔ c ∉ cs := by
  induction cs with
  | nil => simp [colIdx]
  | cons a as ih =>
    by_cases hac : a = c
    · simp [colIdx, hac]
    · simp [colIdx, hac, Option.map_eq_none', ih]
      intro _ hca
      exact hac hca.symm

/-! ### Row-combination lemmas -/

theorem rowsWith_length (f : List Value → Value → List Value)
    (rs : List (List Value)) (vs : List Value) (h : vs.length = rs.length) :
    (rowsWith f rs vs).length = rs.length := by
  induction rs generalizing vs with
  | nil => rfl
  | cons r rt ih =>
    cases vs with
    | nil => simp at h
    | cons v vt => simp [rowsWith, ih vt (by simpa using h)]

theorem map_vget_rowsWith_vset (rs : List (List Value)) (vs : List Value) (i j : Nat)
    (hij : i ≠ j) (hlen : vs.length = rs.length) :
    (rowsWith (fun r v => vset r j v) rs vs).map (fun r => vget r i)
      = rs.map (fun r => vget r i) := by
  induction rs generalizing vs with
  | nil => rfl
  | cons r rt ih =>
    cases vs with
    | nil => simp at hlen
    | cons v vt =>
      simp [rowsWith, vget_vset_ne r i j v hij, ih vt (by simpa using hlen)]

theorem map_vget_rowsWith_vset_self (rs : List (List Value)) (vs : List Value) (i : Nat)
    (hlt : ∀ r ∈ rs, i < r.length) (hlen : vs.length = rs.length) :
    (rowsWith (fun r v => vset r i v) rs vs).map (fun r => vget r i) = vs := by
  induction rs generalizing vs with
  | nil =>
    cases vs with
    | nil => rfl
    | cons v vt => simp at hlen
  | cons r rt ih =>
    cases vs with
    | nil => simp at hlen
    | cons v vt =>
      simp [rowsWith, vget_vset_self r i v (hlt r (by simp)),
        ih vt (fun r hr => hlt r (List.mem_cons_of_mem _ hr)) (by simpa using hlen)]

theorem map_vget_rowsWith_append (rs : List (List Value)) (vs : List Value) (i : Nat)
    (hlt : ∀ r ∈ rs, i < r.length) (hlen : vs.length = rs.length) :
    (rowsWith (fun r v => r ++ [v]) rs vs).map (fun r => vget r i)
      = rs.map (fun r => vget r i) := by
  induction rs generalizing vs with
  | nil => rfl
  | cons r rt ih =>
    cases vs with
    | nil => simp at hlen
    | cons v vt =>
      simp [rowsWith, vget_append_lt r v i (hlt r (by simp)),
        ih vt (fun r hr => hlt r (List.mem_cons_of_mem _ hr)) (by simpa using hlen)]

theorem map_vget_rowsWith_append_self (rs : List (List Value)) (vs : List Value) (n : Nat)
    (hrows : ∀ r ∈ rs, r.length = n) (hlen : vs.length = rs.length) :
    (rowsWith (fun r v => r ++ [v]) rs vs).map (fun r => vget r n) = vs := by
  induction rs generalizing vs with
  | nil =>
    cases vs with
    | nil => rfl
    | cons v vt => simp at hlen
  | cons r rt ih =>
    cases vs with
    | nil => simp at hlen
    | cons v vt =>
      have hr : r.length = n := hrows r (by simp)
      have hv : vget (r ++ [v]) n = v := by
        rw [← hr]
        exact vget_append_self r v
      simp [rowsWith, hv,
        ih vt (fun r hr => hrows r (List.mem_cons_of_mem _ hr)) (by simpa using hlen)]

theorem rowsWith_vset_lengths (rs : List (List Value)) (vs : List Value) (i : Nat)
    (n : Nat) (hrows : ∀ r ∈ rs, r.length = n) (hlen : vs.length = rs.length) :
    ∀ r' ∈ rowsWith (fun r v => vset r i v) rs vs, r'.length = n := by
  induction rs generalizing vs with
  | nil => simp [rowsWith]
  | cons r rt ih =>
    cases vs with
    | nil => simp at hlen
    | cons v vt =>
      intro r' hr'
      simp only [rowsWith, List.mem_cons] at hr'
      cases hr' with
      | inl h => rw [h, vset_length]; exact hrows r (by simp)
      | inr h =>
        exact ih vt (fun r hr => hrows r (List.mem_cons_of_mem _ hr))
          (by simpa using hlen) r' h

theorem rowsWith_append_lengths (rs : List (List Value)) (vs : List Value)
    (n : Nat) (hrows : ∀ r ∈ rs, r.length = n) (hlen : vs.length = rs.length) :
    ∀ r' ∈ rowsWith (fun r v => r ++ [v]) rs vs, r'.length = n + 1 := by
  induction rs generalizing vs with
  | nil => simp [rowsWith]
  | cons r rt ih =>
    cases vs with
    | nil => simp at hlen
    | cons v vt =>
      intro r' hr'
      simp only [rowsWith, List.mem_cons] at hr'
      cases hr' with
      | inl h => rw [h]; simp [hrows r (by simp)]
      | inr h =>
        exact ih vt (fun r hr => hrows r (List.mem_cons_of_mem _ hr))
          (by simpa using hlen) r' h

/-! ### Column-multiplication lemmas -/

theorem mulColumn_length (m : ℚ) (vs ws : List Value)
    (h : mulColumn m vs = some ws) : ws.length = vs.length := by
  induction vs generalizing ws with
  | nil =>
    simp [mulColumn] at h
    simp [← h]
  | cons v vt ih =>
    rw [mulColumn] at h
    cases hv : mulValue m v with
    | none => rw [hv] at h; simp at h
    | some w =>
      rw [hv] at h
      cases ht : mulColumn m vt with
      | none => rw [ht] at h; simp at h
      | some wt =>
        rw [ht] at h
        simp at h
        simp [← h, ih wt ht]

theorem mulColumn_map_num (m : ℚ) (qs : List ℚ) :
    mulColumn m (qs.map Value.num) = some (qs.map (fun q => Value.num (q * m))) := by
  induction qs with
  | nil => rfl
  | cons q qt ih => simp [mulColumn, mulValue, ih]

theorem mulColumn_eq_none_iff (m : ℚ) (vs : List Value) :
    mulColumn m vs = none ↔ vs.any Value.nonNumeric = true := by
  induction vs with
  | nil => simp [mulColumn]
  | cons v vt ih =>
    rw [mulColumn]
    cases hv : mulValue m v with
    | none =>
      have hnn : v.nonNumeric = true := by
        cases v <;> simp_all [mulValue, Value.nonNumeric]
      simp [hnn]
    | some w =>
      have hnn : v.nonNumeric = false := by
        cases v <;> simp_all [mulValue, Value.nonNumeric]
      cases ht : mulColumn m vt with
      | none =>
        have := ih.1 ht
        simp [hnn, this]
      | some wt =>
        have hvt : vt.any Value.nonNumeric = false := by
          by_contra hc
          have := ih.2 (by simpa using hc)
          rw [this] at ht
          cases ht
        simp [hnn, hvt]

/-! ### DataFrame-level lemmas about column assignment -/

theorem getCol_some_elim (df : DataFrame) (c : String) (vs : List Value)
    (h : df.getCol c = some vs) :
    ∃ i, colIdx df.cols c = some i ∧ vs = df.rows.map (fun r => vget r i) := by
  unfold DataFrame.getCol at h
  cases hc : colIdx df.cols c with
  | none => rw [hc] at h; simp at h
  | some i =>
    rw [hc] at h
    simp at h
    exact ⟨i, rfl, h.symm⟩

theorem getCol_length (df : DataFrame) (c : String) (vs : List Value)
    (h : df.getCol c = some vs) : vs.length = df.rows.length := by
  obtain ⟨i, _, hvs⟩ := getCol_some_elim df c vs h
  simp [hvs]

theorem rows_length_setCol (df : DataFrame) (c : String) (vs : List Value)
    (hlen : vs.length = df.rows.length) :
    (df.setCol c vs).rows.length = df.rows.length := by
  unfold DataFrame.setCol
  cases colIdx df.cols c <;> simp [rowsWith_length _ _ _ hlen]

theorem rows_length_setColScalar (df : DataFrame) (c : String) (v : Value) :
    (df.setColScalar c v).rows.length = df.rows.length :=
  rows_length_setCol df c _ (by simp)

theorem WF_setCol (df : DataFrame) (c : String) (vs : List Value)
    (hwf : df.WF) (hlen : vs.length = df.rows.length) : (df.setCol c vs).WF := by
  unfold DataFrame.setCol
  cases hc : colIdx df.cols c with
  | some i =>
    intro r' hr'
    exact rowsWith_vset_lengths df.rows vs i df.cols.length hwf hlen r' hr'
  | none =>
    intro r' hr'
    have := rowsWith_append_lengths df.rows vs df.cols.length hwf hlen r' hr'
    simpa using this

theorem WF_setColScalar (df : DataFrame) (c : String) (v : Value)
    (hwf : df.WF) : (df.setColScalar c v).WF :=
  WF_setCol df c _ hwf (by simp)

theorem getCol_setCol_self (df : DataFrame) (c : String) (vs : List Value)
    (hwf : df.WF) (hlen : vs.length = df.rows.length) :
    (df.setCol c vs).getCol c = some vs := by
  unfold DataFrame.setCol
  cases hc : colIdx df.cols c with
  | some i =>
    have hlt : ∀ r ∈ df.rows, i < r.length := fun r hr => by
      rw [hwf r hr]
      exact colIdx_lt_length df.cols c i hc
    unfold DataFrame.getCol
    simp [hc, map_vget_rowsWith_vset_self df.rows vs i hlt hlen]
  | none =>
    unfold DataFrame.getCol
    have h1 : colIdx (df.cols ++ [c]) c = some df.cols.length := colIdx_append_new _ _ hc
    simp [h1, map_vget_rowsWith_append_self df.rows vs df.cols.length hwf hlen]

theorem getCol_setCol_ne (df : DataFrame) (c d : String) (vs : List Value)
    (hwf : df.WF) (hdc : d ≠ c) (hlen : vs.length = df.rows.length) :
    (df.setCol c vs).getCol d = df.getCol d := by
  unfold DataFrame.setCol
  cases hc : colIdx df.cols c with
  | some j =>
    unfold DataFrame.getCol
    cases hd : colIdx df.cols d with
    | none => simp [hd]
    | some i =>
      have hij : i ≠ j := colIdx_ne_of_ne df.cols d c i j hdc hd hc
      simp [hd, map_vget_rowsWith_vset df.rows vs i j hij hlen]
  | none =>
    unfold DataFrame.getCol
    cases hd : colIdx df.cols d with
    | none =>
      have h1 : colIdx (df.cols ++ [c]) d = none := colIdx_append_none df.cols d c hdc hd
      simp [hd, h1]
    | some i =>
      have h1 : colIdx (df.cols ++ [c]) d = some i := colIdx_append_some df.cols [c] d i hd
      have hlt : ∀ r ∈ df.rows, i < r.length := fun r hr => by
        rw [hwf r hr]
        exact colIdx_lt_length df.cols d i hd
      simp [hd, h1, map_vget_rowsWith_append df.rows vs i hlt hlen]

theorem getCol_setColScalar_self (df : DataFrame) (c : String) (v : Value)
    (hwf : df.WF) :
    (df.setColScalar c v).getCol c = some (df.rows.map (fun _ => v)) :=
  getCol_setCol_self df c _ hwf (by simp)

theorem getCol_setColScalar_ne (df : DataFrame) (c d : String) (v : Value)
    (hwf : df.WF) (hdc : d ≠ c) :
    (df.setColScalar c v).getCol d = df.getCol d :=
  getCol_setCol_ne df c d _ hwf hdc (by simp)

theorem cols_setCol_some (df : DataFrame) (c : String) (vs : List Value) (i : Nat)
    (h : colIdx df.cols c = some i) : (df.setCol c vs).cols = df.cols := by
  unfold DataFrame.setCol
  rw [h]

theorem cols_setCol_none (df : DataFrame) (c : String) (vs : List Value)
    (h : colIdx df.cols c = none) : (df.setCol c vs).cols = df.cols ++ [c] := by
  unfold DataFrame.setCol
  rw [h]

theorem cols_setColScalar_none (df : DataFrame) (c : String) (v : Value)
    (h : colIdx df.cols c = none) : (df.setColScalar c v).cols = df.cols ++ [c] :=
  cols_setCol_none df c _ h

/-! ### Branch lemmas for `transform_data` -/

theorem map_const_replicate (rs : List (List Value)) (v : Value) :
    rs.map (fun _ => v) = List.replicate rs.length v := by
  induction rs with
  | nil => rfl
  | cons r rt ih => simp [List.replicate, ih]

theorem transform_data_other (df : DataFrame) (payer : String) (now : ℚ)
    (h1 : lowerStr payer ≠ "anthem") (h2 : lowerStr payer ≠ "cigna") :
    transform_data df payer now =
      .ok (df.setColScalar "ingestion_timestamp" (.timestamp now)) := by
  simp [transform_data, h1, h2]

theorem transform_data_anthem_eq (df : DataFrame) (payer : String) (now : ℚ)
    (vs ws : List Value) (h1 : lowerStr payer = "anthem")
    (hg : (df.setColScalar "ingestion_timestamp" (.timestamp now)).getCol "claim_amount"
      = some vs)
    (hm : mulColumn (11 / 10) vs = some ws) :
    transform_data df payer now =
      .ok ((df.setColScalar "ingestion_timestamp" (.timestamp now)).setCol
        "claim_amount" ws) := by
  simp [transform_data, h1, hg, hm]

theorem transform_data_cigna_eq (df : DataFrame) (payer : String) (now : ℚ)
    (vs ws : List Value) (h1 : lowerStr payer = "cigna")
    (hg : (df.setColScalar "ingestion_timestamp" (.timestamp now)).getCol "claim_amount"
      = some vs)
    (hm : mulColumn (19 / 20) vs = some ws) :
    transform_data df payer now =
      .ok ((df.setColScalar "ingestion_timestamp" (.timestamp now)).setCol
        "claim_amount" ws) := by
  have hna : lowerStr payer ≠ "anthem" := by rw [h1]; decide
  simp [transform_data, hna, h1, hg, hm]

theorem transform_data_anthem_ok (df out : DataFrame) (payer : String) (now : ℚ)
    (h1 : lowerStr payer = "anthem")
    (h : transform_data df payer now = .ok out) :
    ∃ vs ws,
      (df.setColScalar "ingestion_timestamp" (.timestamp now)).getCol "claim_amount"
        = some vs ∧
      mulColumn (11 / 10) vs = some ws ∧
      out = (df.setColScalar "ingestion_timestamp" (.timestamp now)).setCol
        "claim_amount" ws := by
  simp only [transform_data] at h
  rw [if_pos h1] at h
  split at h
  · exact absurd h (by simp)
  · rename_i vs hg
    split at h
    · exact absurd h (by simp)
    · rename_i ws hm
      simp only [Except.ok.injEq] at h
      exact ⟨vs, ws, hg, hm, h.symm⟩

theorem transform_data_cigna_ok (df out : DataFrame) (payer : String) (now : ℚ)
    (h1 : lowerStr payer ≠ "anthem") (h2 : lowerStr payer = "cigna")
    (h : transform_data df payer now = .ok out) :
    ∃ vs ws,
      (df.setColScalar "ingestion_timestamp" (.timestamp now)).getCol "claim_amount"
        = some vs ∧
      mulColumn (19 / 20) vs = some ws ∧
      out = (df.setColScalar "ingestion_timestamp" (.timestamp now)).setCol
        "claim_amount" ws := by
  simp only [transform_data] at h
  rw [if_neg h1, if_pos h2] at h
  split at h
  · exact absurd h (by simp)
  · rename_i vs hg
    split at h
    · exact absurd h (by simp)
    · rename_i ws hm
      simp only [Except.ok.injEq] at h
      exact ⟨vs, ws, hg, hm, h.symm⟩

theorem transform_data_missing (df : DataFrame) (payer : String) (now : ℚ)
    (hp : lowerStr payer = "anthem" ∨ lowerStr payer = "cigna")
    (hg : (df.setColScalar "ingestion_timestamp" (.timestamp now)).getCol "claim_amount"
      = none) :
    transform_data df payer now = .error (.missingColumn "claim_amount") := by
  cases hp with
  | inl h1 => simp [transform_data, h1, hg]
  | inr h1 =>
    have hna : lowerStr payer ≠ "anthem" := by rw [h1]; decide
    simp [transform_data, hna, h1, hg]

theorem transform_data_mismatch (df : DataFrame) (payer : String) (now : ℚ)
    (vs : List Value)
    (hp : lowerStr payer = "anthem" ∨ lowerStr payer = "cigna")
    (hg : (df.setColScalar "ingestion_timestamp" (.timestamp now)).getCol "claim_amount"
      = some vs)
    (hv : vs.any Value.nonNumeric = true) :
    transform_data df payer now = .error .typeMismatch := by
  cases hp with
  | inl h1 =>
    have hm : mulColumn (11 / 10) vs = none := (mulColumn_eq_none_iff _ vs).2 hv
    simp [transform_data, h1, hg, hm]
  | inr h1 =>
    have hna : lowerStr payer ≠ "anthem" := by rw [h1]; decide
    have hm : mulColumn (19 / 20) vs = none := (mulColumn_eq_none_iff _ vs).2 hv
    simp [transform_data, hna, h1, hg, hm]

/-! ### The claims -/

/-- Claim C1: for every rectangular dataset whose `claim_amount` column holds
numbers and for every payer string, `transform_data` succeeds and each row's
output `claim_amount` is the input amount times 11/10 (the source's 1.10) when
the payer compares equal to "anthem" case-insensitively, times 19/20 (0.95)
when it compares equal to "cigna", and is unchanged for any other payer
(including "manual"). -/
theorem C1_pricing_law (df : DataFrame) (payer : String) (now : ℚ) (qs : List ℚ)
    (hwf : df.WF) (h : df.getCol "claim_amount" = some (qs.map Value.num)) :
    ∃ out, transform_data df payer now = .ok out ∧
      out.getCol "claim_amount" = some ((qs.map (fun q =>
        if lowerStr payer = "anthem" then q * (11 / 10)
        else if lowerStr payer = "cigna" then q * (19 / 20)
        else q)).map Value.num) := by
  have hwf1 : (df.setColScalar "ingestion_timestamp" (Value.timestamp now)).WF :=
    WF_setColScalar df _ _ hwf
  have hne : "claim_amount" ≠ "ingestion_timestamp" := by decide
  have hg : (df.setColScalar "ingestion_timestamp" (Value.timestamp now)).getCol
      "claim_amount" = some (qs.map Value.num) := by
    rw [getCol_setColScalar_ne df _ _ _ hwf hne]
    exact h
  have hlen : (qs.map Value.num).length =
      (df.setColScalar "ingestion_timestamp" (Value.timestamp now)).rows.length :=
    getCol_length _ _ _ hg
  by_cases h1 : lowerStr payer = "anthem"
  · have hm := mulColumn_map_num (11 / 10) qs
    refine ⟨_, transform_data_anthem_eq df payer now _ _ h1 hg hm, ?_⟩
    rw [getCol_setCol_self _ _ _ hwf1 (by simpa using hlen)]
    simp [h1, List.map_map, Function.comp]
  · by_cases h2 : lowerStr payer = "cigna"
    · have hm := mulColumn_map_num (19 / 20) qs
      refine ⟨_, transform_data_cigna_eq df payer now _ _ h2 hg hm, ?_⟩
      rw [getCol_setCol_self _ _ _ hwf1 (by simpa using hlen)]
      simp [h1, h2, List.map_map, Function.comp]
    · refine ⟨_, transform_data_other df payer now h1 h2, ?_⟩
      rw [hg]
      simp [h1, h2]

/-- Witness for C1 at a one-row frame with `claim_amount` 500 and payer
"anthem". -/
theorem C1_pricing_law_witness :
    ∃ out, transform_data ⟨["claim_amount"], [[Value.num 500]]⟩ "anthem" 0 = .ok out ∧
      out.getCol "claim_amount" = some [Value.num 550] := by
  have h := C1_pricing_law ⟨["claim_amount"], [[Value.num 500]]⟩ "anthem" 0 [500]
    (by decide) (by decide)
  have e : lowerStr "anthem" = "anthem" := by decide
  norm_num [e] at h
  exact h

/-- Claim C2, counterexample: the destination label the code selects for payer
"anthem" is "SNOWFLAKE.RAW.ANTHEM_TABLE", not the claim's "RAW.ANTHEM_TABLE". -/
theorem C2_counterexample : select_destination "anthem" ≠ "RAW.ANTHEM_TABLE" := by
  decide

/-- Claim C2 (amended): the loader selects "SNOWFLAKE.RAW.ANTHEM_TABLE" when
the payer lowercases to "anthem", "SNOWFLAKE.RAW.CIGNA_TABLE" when it
lowercases to "cigna", and "SNOWFLAKE.RAW.GENERIC_CLAIMS" otherwise, and emits
that label together with the dataset's row count. -/
theorem C2_destination (df : DataFrame) (payer : String) :
    (lowerStr payer = "anthem" →
      select_destination payer = "SNOWFLAKE.RAW.ANTHEM_TABLE") ∧
    (lowerStr payer = "cigna" →
      select_destination payer = "SNOWFLAKE.RAW.CIGNA_TABLE") ∧
    (lowerStr payer ≠ "anthem" → lowerStr payer ≠ "cigna" →
      select_destination payer = "SNOWFLAKE.RAW.GENERIC_CLAIMS") ∧
    (PayerLoader.init payer).load df =
      [Event.printLine ("Loading data into " ++ select_destination payer),
       Event.printLine ("Total rows: " ++ toString df.rows.length)] := by
  refine ⟨fun h => ?_, fun h => ?_, fun h1 h2 => ?_, rfl⟩
  · simp [select_destination, PayerLoader.init, PayerLoader.table, h]
  · simp [select_destination, PayerLoader.init, PayerLoader.table, h]
  · simp [select_destination, PayerLoader.init, PayerLoader.table, h1, h2]

/-- Witness for C2 (amended) at payer "anthem" and the empty frame. -/
theorem C2_destination_witness :
    select_destination "anthem" = "SNOWFLAKE.RAW.ANTHEM_TABLE" :=
  (C2_destination ⟨[], []⟩ "anthem").1 (by decide)

/-- Claim C3, counterexample: a frame with no `claim_amount` column is
transformed without error for payer "manual" (the multiplier branch never
touches the column), where the claim demands a `MissingColumnError` for every
payer. -/
theorem C3_counterexample :
    transform_data ⟨["member_id"], [[Value.num 1]]⟩ "manual" 0 =
      .ok ⟨["member_id", "ingestion_timestamp"],
        [[Value.num 1, Value.timestamp 0]]⟩ := by
  rfl

/-- Claim C3 (amended): when the payer lowercases to "anthem" or "cigna",
`transform_data` fails with `MissingColumnError` (`KeyError`) if the rectangular
frame has no `claim_amount` column, and with `TypeMismatchError` (`TypeError`)
if that column holds a non-numeric cell; for any other payer the column is
never inspected and these failures cannot occur. -/
theorem C3_transform_errors (df : DataFrame) (payer : String) (now : ℚ)
    (hwf : df.WF)
    (hp : lowerStr payer = "anthem" ∨ lowerStr payer = "cigna") :
    (df.getCol "claim_amount" = none →
      transform_data df payer now = .error (.missingColumn "claim_amount")) ∧
    (∀ vs, df.getCol "claim_amount" = some vs → vs.any Value.nonNumeric = true →
      transform_data df payer now = .error .typeMismatch) := by
  have hne : "claim_amount" ≠ "ingestion_timestamp" := by decide
  have hgg := getCol_setColScalar_ne df "ingestion_timestamp" "claim_amount"
    (Value.timestamp now) hwf hne
  constructor
  · intro h
    refine transform_data_missing df payer now hp ?_
    rw [hgg]
    exact h
  · intro vs h hv
    refine transform_data_mismatch df payer now vs hp ?_ hv
    rw [hgg]
    exact h

/-- Witness for C3 (amended): payer "anthem" on a frame without
`claim_amount`. -/
theorem C3_transform_errors_witness :
    transform_data ⟨["member_id"], [[Value.num 1]]⟩ "anthem" 0 =
      .error (.missingColumn "claim_amount") :=
  (C3_transform_errors ⟨["member_id"], [[Value.num 1]]⟩ "anthem" 0 (by decide)
    (Or.inl (by decide))).1 (by decide)

/-- Claim C4, counterexample: `pd.DataFrame([])` raises nothing; the resolver
given the empty list returns the empty frame, where the claim demands a
`DataSourceError`. -/
theorem C4_counterexample : prepare_dataframe_list [] = ⟨[], []⟩ := rfl

/-- Claim C4 (amended): given an empty list of row-mappings the resolver
produces an empty dataset, with no columns and no rows; it does not fail. -/
theorem C4_empty_list :
    (prepare_dataframe_list []).cols = [] ∧ (prepare_dataframe_list []).rows = [] :=
  ⟨rfl, rfl⟩

/-- Claim C5: a run with a payer other than "manual" and no `--source` flag
fails with `MissingArgumentError` (the source's `ValueError`) with an empty
event trace: no file access or other output happens, and neither the
transformer nor the loader stage is entered. -/
theorem C5_missing_source (payer : String) (fs : String → Option DataFrame)
    (now : ℚ) (hp : payer ≠ "manual") :
    PayLoader.main payer none fs now = ([], .error .missingArgument) := by
  simp [PayLoader.main, hp]

/-- Witness for C5 at payer "anthem" and an empty file system. -/
theorem C5_missing_source_witness :
    PayLoader.main "anthem" none (fun _ => none) 0 = ([], .error .missingArgument) :=
  C5_missing_source "anthem" (fun _ => none) 0 (by decide)

/-- Claim C6: whenever `transform_data` returns a frame, it has exactly as
many rows as the input frame (stated, as the claim does, for inputs carrying a
`claim_amount` column). -/
theorem C6_row_count (df out : DataFrame) (payer : String) (now : ℚ)
    (cvs : List Value) (_hc : df.getCol "claim_amount" = some cvs)
    (h : transform_data df payer now = .ok out) :
    out.rows.length = df.rows.length := by
  by_cases h1 : lowerStr payer = "anthem"
  · obtain ⟨vs, ws, hg, hm, hout⟩ := transform_data_anthem_ok df out payer now h1 h
    have hvs := getCol_length _ _ _ hg
    have hws := mulColumn_length _ _ _ hm
    rw [hout, rows_length_setCol _ _ _ (by rw [hws, hvs]), rows_length_setColScalar]
  · by_cases h2 : lowerStr payer = "cigna"
    · obtain ⟨vs, ws, hg, hm, hout⟩ := transform_data_cigna_ok df out payer now h1 h2 h
      have hvs := getCol_length _ _ _ hg
      have hws := mulColumn_length _ _ _ hm
      rw [hout, rows_length_setCol _ _ _ (by rw [hws, hvs]), rows_length_setColScalar]
    · rw [transform_data_other df payer now h1 h2] at h
      simp only [Except.ok.injEq] at h
      rw [← h, rows_length_setColScalar]

/-- Witness for C6: the one-row sample run with payer "manual". -/
theorem C6_row_count_witness :
    (DataFrame.mk ["claim_amount", "ingestion_timestamp"]
      [[Value.num 500, Value.timestamp 0]]).rows.length =
    (DataFrame.mk ["claim_amount"] [[Value.num 500]]).rows.length :=
  C6_row_count ⟨["claim_amount"], [[Value.num 500]]⟩
    ⟨["claim_amount", "ingestion_timestamp"], [[Value.num 500, Value.timestamp 0]]⟩
    "manual" 0 [Value.num 500] (by decide) (by rfl)

/-- Claim C7: whenever `transform_data` returns a frame (input rectangular),
the `ingestion_timestamp` column is present with the same value — the single
per-call wall-clock reading — on every row. -/
theorem C7_timestamp_column (df out : DataFrame) (payer : String) (now : ℚ)
    (hwf : df.WF) (h : transform_data df payer now = .ok out) :
    out.getCol "ingestion_timestamp" =
      some (List.replicate out.rows.length (Value.timestamp now)) := by
  have hwf1 : (df.setColScalar "ingestion_timestamp" (Value.timestamp now)).WF :=
    WF_setColScalar df _ _ hwf
  have hself : (df.setColScalar "ingestion_timestamp" (Value.timestamp now)).getCol
      "ingestion_timestamp" = some (df.rows.map (fun _ => Value.timestamp now)) :=
    getCol_setColScalar_self df _ _ hwf
  have hts : "ingestion_timestamp" ≠ "claim_amount" := by decide
  by_cases h1 : lowerStr payer = "anthem"
  · obtain ⟨vs, ws, hg, hm, hout⟩ := transform_data_anthem_ok df out payer now h1 h
    have hlen : ws.length =
        (df.setColScalar "ingestion_timestamp" (Value.timestamp now)).rows.length := by
      rw [mulColumn_length _ _ _ hm, getCol_length _ _ _ hg]
    subst hout
    rw [getCol_setCol_ne _ _ _ _ hwf1 hts hlen, hself,
      rows_length_setCol _ _ _ hlen, rows_length_setColScalar, map_const_replicate]
  · by_cases h2 : lowerStr payer = "cigna"
    · obtain ⟨vs, ws, hg, hm, hout⟩ := transform_data_cigna_ok df out payer now h1 h2 h
      have hlen : ws.length =
          (df.setColScalar "ingestion_timestamp" (Value.timestamp now)).rows.length := by
        rw [mulColumn_length _ _ _ hm, getCol_length _ _ _ hg]
      subst hout
      rw [getCol_setCol_ne _ _ _ _ hwf1 hts hlen, hself,
        rows_length_setCol _ _ _ hlen, rows_length_setColScalar, map_const_replicate]
    · rw [transform_data_other df payer now h1 h2] at h
      simp only [Except.ok.injEq] at h
      subst h
      rw [hself, rows_length_setColScalar, map_const_replicate]

/-- Witness for C7: the one-row sample run with payer "manual". -/
theorem C7_timestamp_column_witness :
    (DataFrame.mk ["claim_amount", "ingestion_timestamp"]
      [[Value.num 500, Value.timestamp 0]]).getCol "ingestion_timestamp" =
      some (List.replicate (DataFrame.mk ["claim_amount", "ingestion_timestamp"]
        [[Value.num 500, Value.timestamp 0]]).rows.length (Value.timestamp 0)) :=
  C7_timestamp_column ⟨["claim_amount"], [[Value.num 500]]⟩
    ⟨["claim_amount", "ingestion_timestamp"], [[Value.num 500, Value.timestamp 0]]⟩
    "manual" 0 (by decide) (by rfl)

/-- Claim C8: `transform_data` is pure in this embedding (the input frame is a
value and is left untouched), and on success over a rectangular input that
does not already carry an `ingestion_timestamp` column, the output's columns
are the input's plus `ingestion_timestamp` appended, and every input column
other than `claim_amount` keeps its values unchanged. -/
theorem C8_frame (df out : DataFrame) (payer : String) (now : ℚ)
    (hwf : df.WF) (hts : colIdx df.cols "ingestion_timestamp" = none)
    (h : transform_data df payer now = .ok out) :
    out.cols = df.cols ++ ["ingestion_timestamp"] ∧
    ∀ c ∈ df.cols, c ≠ "claim_amount" → out.getCol c = df.getCol c := by
  have hwf1 : (df.setColScalar "ingestion_timestamp" (Value.timestamp now)).WF :=
    WF_setColScalar df _ _ hwf
  have hcols1 : (df.setColScalar "ingestion_timestamp" (Value.timestamp now)).cols
      = df.cols ++ ["ingestion_timestamp"] := cols_setColScalar_none df _ _ hts
  have hcne : ∀ c ∈ df.cols, c ≠ "ingestion_timestamp" := by
    intro c hc heq
    exact (colIdx_eq_none_iff df.cols "ingestion_timestamp").1 hts (heq ▸ hc)
  have hpres : ∀ c ∈ df.cols, c ≠ "claim_amount" →
      (df.setColScalar "ingestion_timestamp" (Value.timestamp now)).getCol c
        = df.getCol c :=
    fun c hc _ => getCol_setColScalar_ne df _ c _ hwf (hcne c hc)
  by_cases h1 : lowerStr payer = "anthem"
  · obtain ⟨vs, ws, hg, hm, hout⟩ := transform_data_anthem_ok df out payer now h1 h
    have hlen : ws.length =
        (df.setColScalar "ingestion_timestamp" (Value.timestamp now)).rows.length := by
      rw [mulColumn_length _ _ _ hm, getCol_length _ _ _ hg]
    obtain ⟨i, hi, _⟩ := getCol_some_elim _ _ _ hg
    subst hout
    refine ⟨by rw [cols_setCol_some _ _ _ i hi, hcols1], ?_⟩
    intro c hc hcc
    rw [getCol_setCol_ne _ _ _ _ hwf1 hcc hlen]
    exact hpres c hc hcc
  · by_cases h2 : lowerStr payer = "cigna"
    · obtain ⟨vs, ws, hg, hm, hout⟩ := transform_data_cigna_ok df out payer now h1 h2 h
      have hlen : ws.length =
          (df.setColScalar "ingestion_timestamp" (Value.timestamp now)).rows.length := by
        rw [mulColumn_length _ _ _ hm, getCol_length _ _ _ hg]
      obtain ⟨i, hi, _⟩ := getCol_some_elim _ _ _ hg
      subst hout
      refine ⟨by rw [cols_setCol_some _ _ _ i hi, hcols1], ?_⟩
      intro c hc hcc
      rw [getCol_setCol_ne _ _ _ _ hwf1 hcc hlen]
      exact hpres c hc hcc
    · rw [transform_data_other df payer now h1 h2] at h
      simp only [Except.ok.injEq] at h
      subst h
      exact ⟨hcols1, hpres⟩

/-- Witness for C8: the one-row sample run with payer "manual". -/
theorem C8_frame_witness :
    (DataFrame.mk ["claim_amount", "ingestion_timestamp"]
      [[Value.num 500, Value.timestamp 0]]).cols
      = ["claim_amount"] ++ ["ingestion_timestamp"] :=
  (C8_frame ⟨["claim_amount"], [[Value.num 500]]⟩
    ⟨["claim_amount", "ingestion_timestamp"], [[Value.num 500, Value.timestamp 0]]⟩
    "manual" 0 (by decide) (by decide) (by rfl)).1

/-- Claim C9: destination selection is case-insensitive — two payer strings
with the same lowercasing select the same destination label. -/
theorem C9_case_insensitive (s t : String) (h : lowerStr s = lowerStr t) :
    select_destination s = select_destination t := by
  simp [select_destination, PayerLoader.init, PayerLoader.table, h]

/-- Witness for C9 at "Anthem" versus "anthem". -/
theorem C9_case_insensitive_witness :
    select_destination "Anthem" = select_destination "anthem" :=
  C9_case_insensitive "Anthem" "anthem" (by decide)

/-- Claim C10: with payer "manual" the run never reads a file and its entire
behaviour — trace and result — is independent of the `--source` value and of
the file system contents. -/
theorem C10_manual_ignores_source (src1 src2 : Option String)
    (fs1 fs2 : String → Option DataFrame) (now : ℚ) :
    PayLoader.main "manual" src1 fs1 now = PayLoader.main "manual" src2 fs2 now ∧
    (PayLoader.main "manual" src1 fs1 now).1.filter Event.isRead = [] := by
  exact ⟨rfl, rfl⟩
